import Mathlib

/-!
Verification development for the atmo-workshop-scripts repository: shallow
embeddings of the batch instance launcher (batch_launch_instance.py), the
allocation updater (batch_update_allocation.py) and the account cleanup tool
(cleanup_account_resource.py), together with theorems settling the frozen
claims about them.  Network calls are modelled by explicit inputs (fetched
catalogs, poll streams, authentication oracles) and explicit effect lists
(issued writes); Python exceptions are modelled with Except / Option.
-/

namespace UpdateAllocation

/-- Outcome of one row of the allocation updater (update_user_AU). -/
inductive AUOutcome
  | fetch_failed
  | skipped
  | patched
deriving DecidableEq

/-- Model of update_user_AU (batch_update_allocation.py:257).  The input
alloc models the result of client.user_alloc_src(username): none when the
account has no allocation source (Python then raises while unpacking and the
function returns after printing) or the fetch raised; some (uuid, current_au)
otherwise.  The returned list is the list of PATCH writes issued by
client.update_AU, each as (alloc source uuid, new compute_allowed). -/
def update_user_AU (alloc : Option (String × Int)) (target_alloc_unit_count : Int)
    (force_set : Bool) : AUOutcome × List (String × Int) :=
  match alloc with
  | none => (AUOutcome.fetch_failed, [])
  | some (uuid, current_au) =>
    if target_alloc_unit_count < current_au ∧ force_set = false then
      (AUOutcome.skipped, [])
    else
      (AUOutcome.patched, [(uuid, target_alloc_unit_count)])

end UpdateAllocation

namespace BatchLaunch

/-- Model of list_contains (batch_launch_instance.py:839): first entry of l
whose field equals value; Python returns False (here none) when no entry
matches.  The dict access entry[field] is abstracted as the accessor
function field. -/
def list_contains {α β : Type} [DecidableEq β] (l : List α) (field : α → β)
    (value : β) : Option α :=
  match l with
  | [] => none
  | entry :: rest =>
    if field entry = value then some entry else list_contains rest field value

/-- An entry of the projects / allocation-sources catalogs: the two fields
the launcher reads ("name" for lookup, "uuid" for the launch call). -/
structure NamedEntry where
  name : String
  uuid : String
deriving DecidableEq

/-- An identity entry: the launcher reads id["user"]["username"] (modelled
as the username field) and id["uuid"]. -/
structure IdentityEntry where
  username : String
  uuid : String
deriving DecidableEq

/-- The Python pattern "x = ...; if not x: raise SomeError(msg)": ok on a
found value, error with msg on a falsy (absent) one. -/
def reqSome {α : Type} (msg : String) : Option α → Except String α
  | some a => Except.ok a
  | none => Except.error msg

/-- Model of APIClient.get_project (batch_launch_instance.py:105): first
project with the given name, error when none. -/
def get_project (project_list : List NamedEntry) (name : String) :
    Except String NamedEntry :=
  reqSome ("No project with the name of " ++ name)
    (list_contains project_list (fun p => p.name) name)

/-- Model of APIClient.get_allocation_source (batch_launch_instance.py:143). -/
def get_allocation_source (source_list : List NamedEntry) (name : String) :
    Except String NamedEntry :=
  reqSome ("No allocation source with the name of " ++ name)
    (list_contains source_list (fun s => s.name) name)

/-- Model of APIClient.get_identity (batch_launch_instance.py:170): a manual
loop returning the first identity whose user's username matches, error when
none. -/
def get_identity (id_list : List IdentityEntry) (username : String) :
    Except String IdentityEntry :=
  match id_list with
  | [] => Except.error ("No identity with the username of " ++ username)
  | id0 :: rest =>
    if id0.username = username then Except.ok id0 else get_identity rest username

theorem list_contains_first {α β : Type} [DecidableEq β] (pre : List α) (e : α)
    (post : List α) (field : α → β) (value : β) (he : field e = value)
    (hpre : ∀ x ∈ pre, field x ≠ value) :
    list_contains (pre ++ e :: post) field value = some e := by
  induction pre with
  | nil => simp [list_contains, he]
  | cons x xs ih =>
    have hx : field x ≠ value := hpre x (by simp)
    simp only [List.cons_append, list_contains, if_neg hx]
    exact ih (fun y hy => hpre y (by simp [hy]))

theorem list_contains_eq_none_iff {α β : Type} [DecidableEq β] (l : List α)
    (field : α → β) (value : β) :
    list_contains l field value = none ↔ ∀ x ∈ l, field x ≠ value := by
  induction l with
  | nil => simp [list_contains]
  | cons x xs ih =>
    by_cases hx : field x = value
    · simp [list_contains, hx]
    · simp [list_contains, hx, ih]

theorem get_identity_first (pre : List IdentityEntry) (e : IdentityEntry)
    (post : List IdentityEntry) (username : String) (he : e.username = username)
    (hpre : ∀ x ∈ pre, x.username ≠ username) :
    get_identity (pre ++ e :: post) username = Except.ok e := by
  induction pre with
  | nil => simp [get_identity, he]
  | cons x xs ih =>
    have hx : x.username ≠ username := hpre x (by simp)
    simp only [List.cons_append, get_identity, if_neg hx]
    exact ih (fun y hy => hpre y (by simp [hy]))

theorem get_identity_err_iff (l : List IdentityEntry) (username : String) :
    get_identity l username = Except.error ("No identity with the username of " ++ username)
      ↔ ∀ x ∈ l, x.username ≠ username := by
  induction l with
  | nil => simp [get_identity]
  | cons x xs ih =>
    by_cases hx : x.username = username
    · simp [get_identity, hx]
    · simp [get_identity, hx, ih]

/-- A size catalog entry: the launcher matches on "name" and submits
"alias". -/
structure SizeEntry where
  name : String
  size_alias : String
deriving DecidableEq

/-- A machine of an image version: only its "uuid" is read. -/
structure Machine where
  uuid : String
deriving DecidableEq

/-- An image version entry: matched on "name"; fetching version["url"] in
list_machines_of_image_version yields its "machines" field, modelled here as
carried by the entry. -/
structure VersionEntry where
  name : String
  machines : List Machine
deriving DecidableEq

/-- An image catalog entry: "id", "name" and "versions" are read. -/
structure ImageEntry where
  id : Int
  name : String
  versions : List VersionEntry
deriving DecidableEq

/-- The catalogs an authenticated account sees; each launch fetches these
fresh from the API. -/
structure Env where
  sizes : List SizeEntry
  alloc_sources : List NamedEntry
  projects : List NamedEntry
  identities : List IdentityEntry
  images : List ImageEntry

/-- Model of APIClient.get_image (batch_launch_instance.py:197). -/
def get_image (img_list : List ImageEntry) (id : Int) : Except String ImageEntry :=
  reqSome ("No image with the id of " ++ toString id)
    (list_contains img_list (fun img => img.id) id)

/-- Model of APIClient.list_machines_of_image_version
(batch_launch_instance.py:224). -/
def list_machines_of_image_version (img_list : List ImageEntry) (image_id : Int)
    (image_version : String) : Except String (List Machine) := do
  let image ← get_image img_list image_id
  let version ← reqSome ("No version with the name of " ++ image_version)
    (list_contains image.versions (fun v => v.name) image_version)
  Except.ok version.machines

/-- The fields of the Instance object read by Instance.launch: the per-row
parameters (with "" standing for a Python falsy / absent optional value, as
in Instance.__init__) plus the owner username obtained from the account's
identity. -/
structure InstanceReq where
  image_id : Int
  image_version : String
  size : String
  name : String
  project : String
  alloc_src : String
  owner : String
deriving DecidableEq

/-- The six arguments Instance.launch passes to
APIClient.launch_instance_off_image. -/
structure LaunchArgs where
  name : String
  source_uuid : String
  size_alias : String
  alloc_src_uuid : String
  project_uuid : String
  identity_uuid : String
deriving DecidableEq

/-- The allocation-source step of Instance.launch: looked up by the CSV
override when one was given (a non-empty self.alloc_src), else by the
owner's username. -/
def Instance.alloc_src_lookup (env : Env) (inst : InstanceReq) :
    Except String NamedEntry :=
  if inst.alloc_src ≠ "" then get_allocation_source env.alloc_sources inst.alloc_src
  else get_allocation_source env.alloc_sources inst.owner

/-- The display-name step of Instance.launch: the image's own name when no
instance name was given (empty self.name), else the given name. -/
def Instance.name_resolve (env : Env) (inst : InstanceReq) : Except String String :=
  if inst.name = "" then (get_image env.images inst.image_id).map (fun img => img.name)
  else Except.ok inst.name

/-- Model of Instance.launch (batch_launch_instance.py:531): the resolution
chain in source order (size, allocation source, project, identity, machine
uuid, display name); the first raised exception propagates.  Python's
machines[0] raises IndexError on an empty machine list.  Note the project is
looked up by self.owner; the self.project override is dead (the branch on it
is commented out in the source). -/
def Instance.launch (env : Env) (inst : InstanceReq) : Except String LaunchArgs := do
  let size_entry ← reqSome "Invalid size"
    (list_contains env.sizes (fun s => s.name) inst.size)
  let alloc_src ← Instance.alloc_src_lookup env inst
  let project ← get_project env.projects inst.owner
  let identity ← get_identity env.identities inst.owner
  let machines ← list_machines_of_image_version env.images inst.image_id inst.image_version
  let machine0 ← reqSome "IndexError: list index out of range" machines.head?
  let name ← Instance.name_resolve env inst
  Except.ok ⟨name, machine0.uuid, size_entry.size_alias, alloc_src.uuid,
    project.uuid, identity.uuid⟩

/-- The last path segment of a url: what url.split("/")[-1] computes in
image_id_from_url.  Python's str.split always yields a non-empty list, so
the [-1] access never raises; the fold keeps the characters seen since the
last slash. -/
def last_segment (url : String) : List Char :=
  url.toList.foldl (fun acc c => if c = '/' then [] else acc ++ [c]) []

/-- Digits of a Python int literal after its first digit: a run of ASCII
digits in which single underscores may occur between digits (CPython
int("1_5") = 15, while "1__5", "1_" are errors).  Returns the digits with
the underscores removed. -/
def py_digit_tail : List Char → Option (List Char)
  | [] => some []
  | '_' :: rest =>
    match rest with
    | [] => none
    | c :: rest2 =>
      if c.isDigit then (py_digit_tail rest2).map (fun ds => c :: ds) else none
  | c :: rest =>
    if c.isDigit then (py_digit_tail rest).map (fun ds => c :: ds) else none

/-- A non-empty Python digit run: must start with a digit (not an
underscore). -/
def py_digits : List Char → Option (List Char)
  | [] => none
  | c :: rest =>
    if c.isDigit then (py_digit_tail rest).map (fun ds => c :: ds) else none

/-- Numeric value of a list of ASCII digits. -/
def digits_val (ds : List Char) : Nat :=
  ds.foldl (fun acc c => acc * 10 + (c.toNat - 48)) 0

/-- Model of Python int(s) on ASCII input: strip surrounding whitespace,
an optional single sign, then a digit run with optional single underscores
between digits; none models ValueError. -/
def py_int_parse (cs : List Char) : Option Int :=
  let stripped := ((cs.dropWhile Char.isWhitespace).reverse.dropWhile
    Char.isWhitespace).reverse
  match stripped with
  | '+' :: rest => (py_digits rest).map (fun ds => (digits_val ds : Int))
  | '-' :: rest => (py_digits rest).map (fun ds => -(digits_val ds : Int))
  | _ => (py_digits stripped).map (fun ds => (digits_val ds : Int))

/-- Model of image_id_from_url (batch_launch_instance.py:778): int() of the
last path segment; a non-integer segment raises ValueError ("image id not
integer"). -/
def image_id_from_url (url : String) : Except String Int :=
  match py_int_parse (last_segment url) with
  | some n => Except.ok n
  | none => Except.error "image id not integer"

/-- The dict parse_row builds from one CSV row: required credential and
image/version/size fields plus the three optional fields (none when the
column is absent from the header). -/
structure ParsedRow where
  token : Option String
  username : Option String
  password : Option String
  image : Int
  image_version : String
  size : String
  name : Option String
  alloc_src : Option String
  project : Option String
deriving DecidableEq

/-- Access row[required_index[key]]: a missing key raises KeyError, an
out-of-range index raises IndexError; both are caught by read_info_from_csv
and turned into a CSVError. -/
def rowGet (row : List String) (idx : Option Nat) : Except String String :=
  match idx with
  | none => Except.error "KeyError"
  | some j =>
    match row.get? j with
    | some v => Except.ok v
    | none => Except.error "IndexError: list index out of range"

/-- Access an optional column: absent from the header means the field is
simply not set; a present column with an out-of-range index raises like the
required ones. -/
def optGet (row : List String) (idx : Option Nat) : Except String (Option String) :=
  match idx with
  | none => Except.ok none
  | some j =>
    match row.get? j with
    | some v => Except.ok (some v)
    | none => Except.error "IndexError: list index out of range"

/-- The credential part of parse_row: token when use_token, else username
then password. -/
def parse_credentials (use_token : Bool) (row : List String)
    (ri : String → Option Nat) :
    Except String (Option String × Option String × Option String) :=
  if use_token then
    (rowGet row (ri ("token"))).map (fun t => (some t, none, none))
  else do
    let u ← rowGet row (ri ("username"))
    let p ← rowGet row (ri ("password"))
    Except.ok (none, some u, some p)

/-- Model of parse_row (batch_launch_instance.py:798), field accesses in
source order; ri and oi are the required/optional column-index maps produced
by find_fields from the header row. -/
def parse_row (use_token : Bool) (row : List String) (ri oi : String → Option Nat) :
    Except String ParsedRow := do
  let creds ← parse_credentials use_token row ri
  let image_url ← rowGet row (ri ("image"))
  let image ← image_id_from_url image_url
  let image_version ← rowGet row (ri ("image version"))
  let size ← rowGet row (ri ("instance size"))
  let nameO ← optGet row (oi ("instance name"))
  let allocO ← optGet row (oi ("allocation source"))
  let projO ← optGet row (oi ("project name"))
  Except.ok ⟨creds.1, creds.2.1, creds.2.2, image, image_version, size,
    nameO, allocO, projO⟩

/-- Model of the row loop of read_info_from_csv (batch_launch_instance.py:711)
after the header row has been consumed: any row failing to parse raises a
CSVError which aborts the whole load (print + exit(1), modelled as
Except.error). -/
def read_info_from_csv (use_token : Bool) (rows : List (List String))
    (ri oi : String → Option Nat) : Except String (List ParsedRow) :=
  match rows with
  | [] => Except.ok []
  | r :: rest => do
    let p ← parse_row use_token r ri oi
    let ps ← read_info_from_csv use_token rest ri oi
    Except.ok (p :: ps)

/-- A network call issued by the launch tool's main: a per-row
authentication (login / token check) or a per-row launch task. -/
inductive NetCall
  | login (rowIdx : Nat)
  | launch (rowIdx : Nat)
deriving DecidableEq

/-- True on launch calls. -/
def NetCall.isLaunch : NetCall → Bool
  | NetCall.launch _ => true
  | _ => false

/-- The credential-check loop of main (batch_launch_instance.py:644): rows
are authenticated in order; auth i says whether account_login succeeds on
row i.  Returns the issued login calls and whether all rows passed; the loop
stops at the first failing row (main returns). -/
def authLoop (auth : Nat → Bool) : List Nat → List NetCall × Bool
  | [] => ([], true)
  | i :: rest =>
    if auth i then
      (NetCall.login i :: (authLoop auth rest).1, (authLoop auth rest).2)
    else ([NetCall.login i], false)

/-- Model of main (batch_launch_instance.py:638) as the sequence of network
calls it issues for n parsed rows: first the authentication phase; only if
every row authenticated does it submit one launch task per row to the
worker pool (submission order; completion order does not change the set). -/
def main_phase (auth : Nat → Bool) (n : Nat) : List NetCall :=
  if (authLoop auth (List.range n)).2 then
    (authLoop auth (List.range n)).1 ++ (List.range n).map NetCall.launch
  else (authLoop auth (List.range n)).1

/-- The whole launch tool pipeline: parse the CSV data rows, then run main;
a CSV error exits before any network call. -/
def launch_tool_calls (use_token : Bool) (rows : List (List String))
    (ri oi : String → Option Nat) (auth : Nat → Bool) : List NetCall :=
  match read_info_from_csv use_token rows ri oi with
  | Except.error _ => []
  | Except.ok ps => main_phase auth ps.length

/-- A poll outcome this iteration is terminal for the wait loop: the states
on which _wait_active returns once the pair is observed. -/
def terminalPoll (p : String × String) : Bool :=
  p.1 == "error" || p.1 == "deploy_error" || p == ("active", "")

/-- The loop body of Instance._wait_active (batch_launch_instance.py:574),
iteration k.  f k is the k-th poll: some (status, activity) on success, none
when self.status() raises (after its 3 retries); on a raise the except
branch only prints, so new_status keeps its previous value (modelled by
getD new_status) and the iteration proceeds as a no-op tick.  Each iteration
ends in time.sleep(5), so curr_time - launch_time at iteration k is 5 * k
and the 30-minute timeout check reads 5 * k > 1800.  The checks appear in
source order: timeout, then status "error" / "deploy_error"; the while guard
(status, activity) = ("active", "") is re-checked at the head of the next
iteration.  Returns (result, iteration at which the loop returned). -/
def wait_active_go (f : Nat → Option (String × String))
    (new_status : String × String) (k : Nat) : Bool × Nat :=
  let new := (f k).getD new_status
  if 5 * k > 1800 then (false, k)
  else if new.1 = "error" then (false, k)
  else if new.1 = "deploy_error" then (false, k)
  else if new = ("active", "") then (true, k)
  else wait_active_go f new (k + 1)
termination_by 361 - k
decreasing_by
  simp only [gt_iff_lt, not_lt] at *
  omega

/-- Model of Instance._wait_active: if the very first poll raises, the
variable new_status is still unbound when the line comparing it to
(status, acivity) runs, so the loop dies with an UnboundLocalError that
nothing catches — modelled as none.  Otherwise the loop runs with the first
poll's value bound. -/
def wait_active (f : Nat → Option (String × String)) : Option (Bool × Nat) :=
  match f 0 with
  | none => none
  | some v => some (wait_active_go f v 0)

end BatchLaunch

namespace Cleanup

/-- A project as the cleanup tool reads it: "name" (matched against the
username) and "uuid" (compared to decide deletion). -/
structure Project where
  name : String
  uuid : String
deriving DecidableEq

/-- The resources of one account as listed by the API at the start of a
cleanup run. -/
structure AccountState where
  links : List String
  volumes : List String
  instances : List String
  projects : List Project
  username : String
deriving DecidableEq

/-- The writes one cleanup pass issues for one account. -/
structure CleanupEffects where
  deleted_links : List String
  deleted_instances : List String
  deleted_volumes : List String
  created_projects : List Project
  deleted_projects : List Project
deriving DecidableEq

/-- Model of the per-account body of main (cleanup_account_resource.py:24):
delete every link, detach then delete every volume, delete every instance,
then reconcile projects: the default is the first project whose name equals
the username; if none exists one is created (with a fresh uuid, supplied
here as freshUuid); every project of the pre-create listing whose uuid
differs from the default's is deleted.  Returns the effects and the account
state after the pass. -/
def cleanup_account (st : AccountState) (freshUuid : String) :
    CleanupEffects × AccountState :=
  match st.projects.find? (fun p => p.name == st.username) with
  | some default_project =>
    (⟨st.links, st.instances, st.volumes, [],
      st.projects.filter (fun p => p.uuid != default_project.uuid)⟩,
     ⟨[], [], [], st.projects.filter (fun p => p.uuid == default_project.uuid),
      st.username⟩)
  | none =>
    (⟨st.links, st.instances, st.volumes, [⟨st.username, freshUuid⟩],
      st.projects.filter (fun p => p.uuid != freshUuid)⟩,
     ⟨[], [], [],
      st.projects.filter (fun p => p.uuid == freshUuid) ++ [⟨st.username, freshUuid⟩],
      st.username⟩)

end Cleanup

namespace BatchLaunch

@[simp] theorem exbind_ok {ε α β : Type} (a : α) (f : α → Except ε β) :
    (Except.ok a >>= f : Except ε β) = f a := rfl

@[simp] theorem exbind_error {ε α β : Type} (e : ε) (f : α → Except ε β) :
    (Except.error e >>= f : Except ε β) = Except.error e := rfl

@[simp] theorem reqSome_some {α : Type} (msg : String) (a : α) :
    reqSome msg (some a) = Except.ok a := rfl

@[simp] theorem reqSome_none {α : Type} (msg : String) :
    reqSome msg (none : Option α) = Except.error msg := rfl

theorem list_contains_some {α β : Type} [DecidableEq β] {l : List α}
    {field : α → β} {value : β} {p : α}
    (h : list_contains l field value = some p) : p ∈ l ∧ field p = value := by
  induction l with
  | nil => simp [list_contains] at h
  | cons x xs ih =>
    by_cases hx : field x = value
    · simp only [list_contains, if_pos hx, Option.some.injEq] at h
      subst h
      exact ⟨by simp, hx⟩
    · simp only [list_contains, if_neg hx] at h
      obtain ⟨hm, hv⟩ := ih h
      exact ⟨by simp [hm], hv⟩

theorem get_identity_some {l : List IdentityEntry} {u : String} {e : IdentityEntry}
    (h : get_identity l u = Except.ok e) : e ∈ l ∧ e.username = u := by
  induction l with
  | nil => simp [get_identity] at h
  | cons x xs ih =>
    by_cases hx : x.username = u
    · simp only [get_identity, if_pos hx, Except.ok.injEq] at h
      subst h
      exact ⟨by simp, hx⟩
    · simp only [get_identity, if_neg hx] at h
      obtain ⟨hm, hv⟩ := ih h
      exact ⟨by simp [hm], hv⟩

theorem exbind_ok_inv {ε α β : Type} {x : Except ε α} {f : α → Except ε β} {b : β}
    (h : (x >>= f) = Except.ok b) : ∃ a, x = Except.ok a ∧ f a = Except.ok b := by
  cases x with
  | error e => simp at h
  | ok a => exact ⟨a, rfl, by simpa using h⟩

/-- In the success case, the project argument submitted by Instance.launch is
the uuid of the project resolved by owner-name lookup. -/
theorem launch_ok_project (env : Env) (inst : InstanceReq) (r : LaunchArgs)
    (h : Instance.launch env inst = Except.ok r) :
    ∃ pe, get_project env.projects inst.owner = Except.ok pe ∧
      r.project_uuid = pe.uuid := by
  unfold Instance.launch at h
  obtain ⟨se, hs, h⟩ := exbind_ok_inv h
  obtain ⟨al, hga, h⟩ := exbind_ok_inv h
  obtain ⟨pe, hp, h⟩ := exbind_ok_inv h
  obtain ⟨ide, hid, h⟩ := exbind_ok_inv h
  obtain ⟨ms, hm, h⟩ := exbind_ok_inv h
  obtain ⟨m0, hm0, h⟩ := exbind_ok_inv h
  obtain ⟨nm, hnm, h⟩ := exbind_ok_inv h
  injection h with h2
  exact ⟨pe, hp, by rw [← h2]⟩

end BatchLaunch

namespace BatchLaunch

theorem authLoop_calls_login (auth : Nat → Bool) (l : List Nat) :
    ∀ c ∈ (authLoop auth l).1, ∃ i, c = NetCall.login i := by
  induction l with
  | nil => simp [authLoop]
  | cons i rest ih =>
    intro c hc
    by_cases hi : auth i = true
    · simp only [authLoop, if_pos hi, List.mem_cons] at hc
      rcases hc with rfl | hc
      · exact ⟨i, rfl⟩
      · exact ih c hc
    · simp only [authLoop, if_neg hi, List.mem_cons, List.not_mem_nil, or_false] at hc
      exact ⟨i, hc⟩

theorem authLoop_ok_iff (auth : Nat → Bool) (l : List Nat) :
    (authLoop auth l).2 = true ↔ ∀ i ∈ l, auth i = true := by
  induction l with
  | nil => simp [authLoop]
  | cons i rest ih =>
    by_cases hi : auth i = true
    · simp [authLoop, hi, ih]
    · simp only [authLoop, if_neg hi]
      constructor
      · intro hfalse
        exact absurd hfalse (by simp)
      · intro hall
        exact absurd (hall i (by simp)) hi

theorem authLoop_all_logins (auth : Nat → Bool) (l : List Nat)
    (h : ∀ i ∈ l, auth i = true) : (authLoop auth l).1 = l.map NetCall.login := by
  induction l with
  | nil => simp [authLoop]
  | cons i rest ih =>
    have hi : auth i = true := h i (by simp)
    simp only [authLoop, if_pos hi, List.map_cons, List.cons.injEq, true_and]
    exact ih (fun j hj => h j (by simp [hj]))

/-- When some row fails authentication, main issues only login calls: the
batch aborts inside the credential-check loop and the launch pool is never
started. -/
theorem main_phase_no_launch_of_fail (auth : Nat → Bool) (n : Nat)
    (h : ∃ i, i < n ∧ auth i = false) :
    ∀ c ∈ main_phase auth n, ∃ j, c = NetCall.login j := by
  obtain ⟨i, hi, hfail⟩ := h
  have hnotok : ¬((authLoop auth (List.range n)).2 = true) := by
    intro htrue
    have := (authLoop_ok_iff auth (List.range n)).mp htrue i (List.mem_range.mpr hi)
    rw [hfail] at this
    exact Bool.noConfusion this
  intro c hc
  unfold main_phase at hc
  rw [if_neg hnotok] at hc
  exact authLoop_calls_login auth (List.range n) c hc

end BatchLaunch

/-- C1: in the launch tool's main, every CSV row is authenticated before any
launch, and the gate is fail-closed: if any row's login or token check
fails, zero launch calls are issued; a launch call can only appear when
every row authenticated, and when all rows authenticate the call sequence is
all the logins followed by all the launch submissions. -/
theorem c1_auth_gate_before_launch (auth : Nat → Bool) (n : Nat) :
    ((∃ i, i < n ∧ auth i = false) →
      ∀ c ∈ BatchLaunch.main_phase auth n, ∃ j, c = BatchLaunch.NetCall.login j)
    ∧ (∀ j, BatchLaunch.NetCall.launch j ∈ BatchLaunch.main_phase auth n →
        ∀ i, i < n → auth i = true)
    ∧ ((∀ i, i < n → auth i = true) →
      BatchLaunch.main_phase auth n =
        (List.range n).map BatchLaunch.NetCall.login ++
        (List.range n).map BatchLaunch.NetCall.launch) := by
  refine ⟨BatchLaunch.main_phase_no_launch_of_fail auth n, ?_, ?_⟩
  · intro j hj i hi
    by_cases hok : auth i = true
    · exact hok
    · exfalso
      obtain ⟨j2, hj2⟩ := BatchLaunch.main_phase_no_launch_of_fail auth n
        ⟨i, hi, by simpa using hok⟩ (BatchLaunch.NetCall.launch j) hj
      exact BatchLaunch.NetCall.noConfusion hj2
  · intro hall
    have hmem : ∀ i ∈ List.range n, auth i = true :=
      fun i hi => hall i (List.mem_range.mp hi)
    unfold BatchLaunch.main_phase
    rw [if_pos ((BatchLaunch.authLoop_ok_iff auth (List.range n)).mpr hmem),
      BatchLaunch.authLoop_all_logins auth (List.range n) hmem]

/-- C1 witness: two rows that both authenticate; the calls are both logins
followed by both launch submissions. -/
theorem c1_witness :
    BatchLaunch.main_phase (fun _ => true) 2 =
      (List.range 2).map BatchLaunch.NetCall.login ++
      (List.range 2).map BatchLaunch.NetCall.launch :=
  (c1_auth_gate_before_launch (fun _ => true) 2).2.2 (fun _ _ => rfl)

/-- C2 counterexample: with 5 CSV rows of which exactly one (row 2) fails
authentication, the launch tool issues no launch call at all — it stops at
row 2's failed credential check — so the other 4 authenticated rows do NOT
get instances, contradicting the claimed per-row isolation. -/
theorem c2_counterexample :
    ((List.range 5).filter (fun i => i == 2)).length = 1
    ∧ BatchLaunch.main_phase (fun i => i != 2) 5 =
      [BatchLaunch.NetCall.login 0, BatchLaunch.NetCall.login 1,
       BatchLaunch.NetCall.login 2] := by
  decide

/-- C2 (amended): when authentication fails for any one of 5 CSV rows, the
entire batch aborts: no launch call is issued for any row (no per-row
isolation at the authentication phase; failure isolation exists only at the
launch phase). -/
theorem c2_amended_batch_aborts (auth : Nat → Bool)
    (h : ∃ i, i < 5 ∧ auth i = false) :
    (BatchLaunch.main_phase auth 5).countP BatchLaunch.NetCall.isLaunch = 0 := by
  rw [List.countP_eq_zero]
  intro c hc
  obtain ⟨j, rfl⟩ := BatchLaunch.main_phase_no_launch_of_fail auth 5 h c hc
  simp [BatchLaunch.NetCall.isLaunch]

/-- C2 witness: the amended claim at the concrete failing batch of the
counterexample. -/
theorem c2_amended_witness :
    (BatchLaunch.main_phase (fun i => i != 2) 5).countP
      BatchLaunch.NetCall.isLaunch = 0 :=
  c2_amended_batch_aborts (fun i => i != 2) ⟨2, by norm_num, by decide⟩

namespace BatchLaunch

theorem rowGet_ok_inv {row : List String} {idx : Option Nat} {v : String}
    (h : rowGet row idx = Except.ok v) :
    ∃ j, idx = some j ∧ row.get? j = some v := by
  cases idx with
  | none => simp [rowGet] at h
  | some j =>
    cases hg : row.get? j with
    | none => rw [rowGet, hg] at h; exact Except.noConfusion h
    | some w =>
      rw [rowGet, hg] at h
      injection h with h2
      exact ⟨j, rfl, by rw [hg, h2]⟩

theorem image_id_from_url_ok_iff {url : String} {n : Int} :
    image_id_from_url url = Except.ok n ↔
      py_int_parse (last_segment url) = some n := by
  cases hp : py_int_parse (last_segment url) with
  | none => rw [image_id_from_url, hp]; simp
  | some m => rw [image_id_from_url, hp]; simp

/-- Success of parse_row forces the image cell to exist and its last path
segment to parse as the row's integer image id. -/
theorem parse_row_ok_image {use_token : Bool} {row : List String}
    {ri oi : String → Option Nat} {p : ParsedRow}
    (h : parse_row use_token row ri oi = Except.ok p) :
    ∃ i url, ri ("image") = some i ∧ row.get? i = some url ∧
      py_int_parse (last_segment url) = some p.image := by
  unfold parse_row at h
  obtain ⟨creds, hc, h⟩ := exbind_ok_inv h
  obtain ⟨url, hu, h⟩ := exbind_ok_inv h
  obtain ⟨img, himg, h⟩ := exbind_ok_inv h
  obtain ⟨ver, hv, h⟩ := exbind_ok_inv h
  obtain ⟨sz, hsz, h⟩ := exbind_ok_inv h
  obtain ⟨nm, hnm, h⟩ := exbind_ok_inv h
  obtain ⟨alo, hal, h⟩ := exbind_ok_inv h
  obtain ⟨pj, hpj, h⟩ := exbind_ok_inv h
  injection h with h2
  obtain ⟨j, hj, hget⟩ := rowGet_ok_inv hu
  refine ⟨j, url, hj, hget, ?_⟩
  have himg2 := image_id_from_url_ok_iff.mp himg
  rw [himg2, ← h2]

/-- A row whose image cell's last path segment is not an integer fails to
parse. -/
theorem parse_row_err_of_bad_image {use_token : Bool} {row : List String}
    {ri oi : String → Option Nat} {i : Nat} {url : String}
    (hi : ri ("image") = some i) (hu : row.get? i = some url)
    (hbad : py_int_parse (last_segment url) = none) :
    ∃ e, parse_row use_token row ri oi = Except.error e := by
  cases hres : parse_row use_token row ri oi with
  | error e => exact ⟨e, rfl⟩
  | ok p =>
    obtain ⟨i2, url2, hi2, hu2, hparse⟩ := parse_row_ok_image hres
    rw [hi] at hi2
    injection hi2 with hii
    rw [← hii, hu] at hu2
    injection hu2 with huu
    rw [← huu, hbad] at hparse
    exact Option.noConfusion hparse

/-- A failing row makes the whole CSV load fail (the CSVError path:
print + exit(1)). -/
theorem read_info_err_of_row_err {use_token : Bool} {rows : List (List String)}
    {ri oi : String → Option Nat}
    (h : ∃ r ∈ rows, ∃ e, parse_row use_token r ri oi = Except.error e) :
    ∃ e2, read_info_from_csv use_token rows ri oi = Except.error e2 := by
  induction rows with
  | nil => simp at h
  | cons r0 rest ih =>
    obtain ⟨r, hr, e, he⟩ := h
    rcases List.mem_cons.mp hr with rfl | hmem
    · exact ⟨e, by unfold read_info_from_csv; rw [he]; rfl⟩
    · cases hp : parse_row use_token r0 ri oi with
      | error e0 => exact ⟨e0, by unfold read_info_from_csv; rw [hp]; rfl⟩
      | ok p0 =>
        obtain ⟨e2, he2⟩ := ih ⟨r, hmem, e, he⟩
        refine ⟨e2, ?_⟩
        unfold read_info_from_csv
        rw [hp]
        simp only [exbind_ok]
        rw [he2]
        rfl

end BatchLaunch

/-- C8: a row whose image-URL last path segment does not parse as a Python
integer makes parse_row fail, which aborts the whole CSV load, and an
aborted load issues zero network calls (no login, no launch); conversely a
row that parses got its numeric image id as the integer value of the image
URL's final path segment. -/
theorem c8_bad_image_url_aborts (use_token : Bool) (ri oi : String → Option Nat) :
    (∀ rows auth,
      (∃ r ∈ rows, ∃ e, BatchLaunch.parse_row use_token r ri oi = Except.error e) →
      BatchLaunch.launch_tool_calls use_token rows ri oi auth = [])
    ∧ (∀ row i url, ri ("image") = some i → row.get? i = some url →
        BatchLaunch.py_int_parse (BatchLaunch.last_segment url) = none →
        ∃ e, BatchLaunch.parse_row use_token row ri oi = Except.error e)
    ∧ (∀ row p, BatchLaunch.parse_row use_token row ri oi = Except.ok p →
        ∃ i url, ri ("image") = some i ∧ row.get? i = some url ∧
          BatchLaunch.py_int_parse (BatchLaunch.last_segment url) = some p.image) := by
  refine ⟨?_, ?_, ?_⟩
  · intro rows auth h
    obtain ⟨e2, he2⟩ := BatchLaunch.read_info_err_of_row_err h
    unfold BatchLaunch.launch_tool_calls
    rw [he2]
  · intro row i url hi hu hbad
    exact BatchLaunch.parse_row_err_of_bad_image hi hu hbad
  · intro row p h
    exact BatchLaunch.parse_row_ok_image h

/-- The column-index map of the example header
token,image,image version,instance size (image at column 0 and so on), as
find_fields would produce it. -/
def riExample : String → Option Nat := fun s =>
  if s = "image" then some 0 else if s = "image version" then some 1
  else if s = "instance size" then some 2 else if s = "token" then some 3
  else none

/-- No optional columns in the example header. -/
def oiExample : String → Option Nat := fun _ => none

/-- C8 witness: a CSV whose single row has image url "atmo/images/abc"
(non-numeric last segment) aborts with no network call, and the well-formed
row "atmo/images/1552" parses with image id 1552. -/
theorem c8_witness :
    BatchLaunch.launch_tool_calls true
      [["atmo/images/abc", "2.0", "tiny1", "tok-1"]]
      riExample oiExample (fun _ => true) = []
    ∧ ∃ i url, riExample ("image") = some i
      ∧ (["atmo/images/1552", "2.0", "tiny1", "tok-1"] : List String).get? i = some url
      ∧ BatchLaunch.py_int_parse (BatchLaunch.last_segment url) =
          some (⟨some "tok-1", none, none, 1552, "2.0", "tiny1", none, none, none⟩ :
            BatchLaunch.ParsedRow).image := by
  constructor
  · exact (c8_bad_image_url_aborts true riExample oiExample).1
      [["atmo/images/abc", "2.0", "tiny1", "tok-1"]] (fun _ => true)
      ⟨["atmo/images/abc", "2.0", "tiny1", "tok-1"], by simp,
        (c8_bad_image_url_aborts true riExample oiExample).2.1
          ["atmo/images/abc", "2.0", "tiny1", "tok-1"] 0 "atmo/images/abc"
          rfl rfl (by decide)⟩
  · exact (c8_bad_image_url_aborts true riExample oiExample).2.2
      ["atmo/images/1552", "2.0", "tiny1", "tok-1"]
      ⟨some "tok-1", none, none, 1552, "2.0", "tiny1", none, none, none⟩
      rfl

namespace BatchLaunch

theorem terminalPoll_eq_false_iff (p : String × String) :
    terminalPoll p = false ↔
      p.1 ≠ "error" ∧ p.1 ≠ "deploy_error" ∧ p ≠ ("active", "") := by
  simp [terminalPoll, and_assoc]

theorem wait_active_go_timeout (f : Nat → Option (String × String))
    (prev : String × String) (k : Nat) (h : 5 * k > 1800) :
    wait_active_go f prev k = (false, k) := by
  rw [wait_active_go.eq_def]
  simp [h]

theorem wait_active_go_error (f : Nat → Option (String × String))
    (prev : String × String) (k : Nat) (hk : ¬5 * k > 1800)
    (he : ((f k).getD prev).1 = "error") :
    wait_active_go f prev k = (false, k) := by
  rw [wait_active_go.eq_def]
  simp [hk, he]

theorem wait_active_go_deploy (f : Nat → Option (String × String))
    (prev : String × String) (k : Nat) (hk : ¬5 * k > 1800)
    (h1 : ((f k).getD prev).1 ≠ "error")
    (hd : ((f k).getD prev).1 = "deploy_error") :
    wait_active_go f prev k = (false, k) := by
  rw [wait_active_go.eq_def]
  simp [hk, h1, hd]

theorem wait_active_go_active (f : Nat → Option (String × String))
    (prev : String × String) (k : Nat) (hk : ¬5 * k > 1800)
    (h1 : ((f k).getD prev).1 ≠ "error")
    (h2 : ((f k).getD prev).1 ≠ "deploy_error")
    (ha : (f k).getD prev = ("active", "")) :
    wait_active_go f prev k = (true, k) := by
  rw [wait_active_go.eq_def]
  simp [hk, h1, h2, ha]

theorem wait_active_go_step (f : Nat → Option (String × String))
    (prev : String × String) (k : Nat) (hk : ¬5 * k > 1800)
    (h1 : ((f k).getD prev).1 ≠ "error")
    (h2 : ((f k).getD prev).1 ≠ "deploy_error")
    (h3 : (f k).getD prev ≠ ("active", "")) :
    wait_active_go f prev k = wait_active_go f ((f k).getD prev) (k + 1) := by
  conv_lhs => rw [wait_active_go.eq_def]
  simp [hk, h1, h2, h3]

/-- The wait loop always returns by iteration 361: the timeout guard fires
at the 362nd poll at the latest. -/
theorem wait_active_go_snd_le (f : Nat → Option (String × String)) :
    ∀ (fuel k : Nat) (prev : String × String), k ≤ 361 → 361 - k ≤ fuel →
      (wait_active_go f prev k).2 ≤ 361 := by
  intro fuel
  induction fuel with
  | zero =>
    intro k prev hk hf
    have hk361 : k = 361 := by omega
    subst hk361
    rw [wait_active_go_timeout f prev 361 (by norm_num)]
  | succ n ih =>
    intro k prev hk hf
    by_cases ht : 5 * k > 1800
    · rw [wait_active_go_timeout f prev k ht]
      simpa using hk
    by_cases h1 : ((f k).getD prev).1 = "error"
    · rw [wait_active_go_error f prev k ht h1]
      simpa using hk
    by_cases h2 : ((f k).getD prev).1 = "deploy_error"
    · rw [wait_active_go_deploy f prev k ht h1 h2]
      simpa using hk
    by_cases h3 : (f k).getD prev = ("active", "")
    · rw [wait_active_go_active f prev k ht h1 h2 h3]
      simpa using hk
    · rw [wait_active_go_step f prev k ht h1 h2 h3]
      exact ih (k + 1) ((f k).getD prev) (by omega) (by omega)

/-- With a never-failing poll stream the first-poll value is bound and the
loop's result does not depend on the carried previous sample. -/
theorem wait_active_go_prev_irrel (f : Nat → String × String) (k : Nat)
    (p1 p2 : String × String) :
    wait_active_go (fun j => some (f j)) p1 k =
      wait_active_go (fun j => some (f j)) p2 k := by
  conv_lhs => rw [wait_active_go.eq_def]
  conv_rhs => rw [wait_active_go.eq_def]
  simp only [Option.getD_some]

/-- As long as every poll before m is non-terminal and m is within the
timeout horizon, the loop from iteration 0 reaches iteration m. -/
theorem wait_active_go_walk (f : Nat → String × String) :
    ∀ (m : Nat), m ≤ 361 → (∀ j, j < m → terminalPoll (f j) = false) →
      ∀ prev, wait_active_go (fun j => some (f j)) prev 0 =
        wait_active_go (fun j => some (f j)) prev m := by
  intro m
  induction m with
  | zero => intro _ _ prev; rfl
  | succ m ih =>
    intro hm h prev
    rw [ih (by omega) (fun j hj => h j (by omega)) prev]
    obtain ⟨h1, h2, h3⟩ := (terminalPoll_eq_false_iff (f m)).mp (h m (by omega))
    rw [wait_active_go_step (fun j => some (f j)) prev m (by omega) h1 h2 h3]
    simp only [Option.getD_some]
    exact wait_active_go_prev_irrel f (m + 1) (f m) prev

theorem wait_active_some (f : Nat → String × String) :
    wait_active (fun k => some (f k)) =
      some (wait_active_go (fun k => some (f k)) (f 0) 0) := rfl

end BatchLaunch

/-- C3: the active-wait poller (one tick = one 5-second poll, so iteration
k happens 5*k seconds after launch): it always returns by iteration 361,
i.e. within 1800 seconds plus one poll interval (5*361 = 1805 = 1800 + 5);
a poll observing status "error" or "deploy_error" (once reached without an
earlier terminal observation) returns failure at that very poll; a poll
within the 1800-second window observing status "active" with activity ""
simultaneously returns success at that very poll (at the timeout boundary
the timeout check runs first, since the source checks it before the while
guard re-examines the status); and if no terminal pair is observed before
iteration 361 the poller returns failure by timeout at iteration 361. -/
theorem c3_poller_terminates_and_reports (f : Nat → String × String) :
    (∃ r, BatchLaunch.wait_active (fun k => some (f k)) = some r ∧
      r.2 ≤ 361 ∧ 5 * r.2 ≤ 1805)
    ∧ (∀ k, 5 * k ≤ 1800 →
        (∀ j, j < k → BatchLaunch.terminalPoll (f j) = false) →
        ((f k).1 = "error" ∨ (f k).1 = "deploy_error") →
        BatchLaunch.wait_active (fun k2 => some (f k2)) = some (false, k))
    ∧ (∀ k, 5 * k ≤ 1800 →
        (∀ j, j < k → BatchLaunch.terminalPoll (f j) = false) →
        f k = ("active", "") →
        BatchLaunch.wait_active (fun k2 => some (f k2)) = some (true, k))
    ∧ ((∀ j, j < 361 → BatchLaunch.terminalPoll (f j) = false) →
        BatchLaunch.wait_active (fun k2 => some (f k2)) = some (false, 361)) := by
  refine ⟨?_, ?_, ?_, ?_⟩
  · refine ⟨BatchLaunch.wait_active_go (fun k => some (f k)) (f 0) 0,
      BatchLaunch.wait_active_some f, ?_, ?_⟩
    · exact BatchLaunch.wait_active_go_snd_le _ 361 0 (f 0) (by omega) (by omega)
    · have := BatchLaunch.wait_active_go_snd_le (fun k => some (f k)) 361 0 (f 0)
        (by omega) (by omega)
      omega
  · intro k hk hpre hval
    rw [BatchLaunch.wait_active_some f,
      BatchLaunch.wait_active_go_walk f k (by omega) hpre (f 0)]
    rcases hval with he | hd
    · rw [BatchLaunch.wait_active_go_error (fun k2 => some (f k2)) (f 0) k
        (by omega) he]
    · rw [BatchLaunch.wait_active_go_deploy (fun k2 => some (f k2)) (f 0) k
        (by omega) (by simp only [Option.getD_some]; rw [hd]; decide) hd]
  · intro k hk hpre ha
    rw [BatchLaunch.wait_active_some f,
      BatchLaunch.wait_active_go_walk f k (by omega) hpre (f 0)]
    rw [BatchLaunch.wait_active_go_active (fun k2 => some (f k2)) (f 0) k
      (by omega) (by simp only [Option.getD_some]; rw [ha]; decide)
      (by simp only [Option.getD_some]; rw [ha]; decide) ha]
  · intro hpre
    rw [BatchLaunch.wait_active_some f,
      BatchLaunch.wait_active_go_walk f 361 (by omega) hpre (f 0),
      BatchLaunch.wait_active_go_timeout (fun k2 => some (f k2)) (f 0) 361
        (by norm_num)]

/-- C3 witness: a stream that never becomes active times out with failure at
iteration 361 (1805 seconds, one interval past 1800), and a stream that
turns active with empty activity at poll 2 succeeds at poll 2. -/
theorem c3_witness :
    BatchLaunch.wait_active
        (fun k2 => some ((fun _ : Nat => ("pending", "deploying")) k2)) =
      some (false, 361)
    ∧ BatchLaunch.wait_active
        (fun k2 => some ((fun j : Nat =>
          if j < 2 then ("pending", "deploying") else ("active", "")) k2)) =
      some (true, 2) :=
  ⟨(c3_poller_terminates_and_reports (fun _ => ("pending", "deploying"))).2.2.2
      (fun _ _ => by decide),
   (c3_poller_terminates_and_reports
      (fun j => if j < 2 then ("pending", "deploying") else ("active", ""))).2.2.1
      2 (by norm_num) (by decide) (by norm_num)⟩

/-- C4: the claim that a failed poll is always a harmless no-op tick is
broken by the code on the very first poll: Instance._wait_active only
assigns new_status inside the try, its except branch merely prints, and the
next line reads new_status — unbound when the first self.status() call
raised — so the poller crashes with an UnboundLocalError (modelled as none)
instead of continuing to poll.  This contradicts the spec's no-op-tick
description and the evident intent of the except handler, so it is a bug in
the code; the theorem evaluates the model at the failing input: a stream
whose first poll raises and which would otherwise report "pending". -/
theorem c4_first_poll_failure_crashes :
    BatchLaunch.wait_active
      (fun k => if k = 0 then none else some (("pending", "networking"))) =
      none := rfl

/-- C5: for every list-then-find lookup, when two or more entries share the
searched name the first entry in API response order is returned and no error
is raised; an error is raised only when no entry matches.  Stated for
get_project (get_allocation_source, get_image and the image-version lookup
factor through the same list_contains scan) and for get_identity's manual
first-match loop; the first-match clauses are stated for any 1 or more
matching entries, which covers the duplicate case. -/
theorem c5_first_match_lookup (projects : List BatchLaunch.NamedEntry)
    (pname : String) (identities : List BatchLaunch.IdentityEntry) (iname : String) :
    (∀ pre e post, projects = pre ++ e :: post → e.name = pname →
        (∀ x ∈ pre, x.name ≠ pname) →
        BatchLaunch.get_project projects pname = Except.ok e)
    ∧ (BatchLaunch.get_project projects pname =
        Except.error ("No project with the name of " ++ pname) ↔
        ∀ e ∈ projects, e.name ≠ pname)
    ∧ (∀ pre e post, identities = pre ++ e :: post → e.username = iname →
        (∀ x ∈ pre, x.username ≠ iname) →
        BatchLaunch.get_identity identities iname = Except.ok e)
    ∧ (BatchLaunch.get_identity identities iname =
        Except.error ("No identity with the username of " ++ iname) ↔
        ∀ x ∈ identities, x.username ≠ iname) := by
  refine ⟨?_, ?_, ?_, ?_⟩
  · intro pre e post hl he hpre
    subst hl
    unfold BatchLaunch.get_project
    rw [BatchLaunch.list_contains_first pre e post _ pname he hpre]
    rfl
  · unfold BatchLaunch.get_project
    cases hlc : BatchLaunch.list_contains projects (fun p => p.name) pname with
    | none =>
      simp only [BatchLaunch.reqSome_none, true_iff]
      exact (BatchLaunch.list_contains_eq_none_iff projects _ pname).mp hlc
    | some p =>
      obtain ⟨hm, hv⟩ := BatchLaunch.list_contains_some hlc
      constructor
      · intro h; exact absurd h (by simp [BatchLaunch.reqSome])
      · intro hall; exact absurd hv (hall p hm)
  · intro pre e post hl he hpre
    subst hl
    exact BatchLaunch.get_identity_first pre e post iname he hpre
  · exact BatchLaunch.get_identity_err_iff identities iname

/-- C5 witness: two projects and two identities sharing a name; the lookups
return the first entry and raise no error. -/
theorem c5_witness :
    BatchLaunch.get_project [⟨"p1", "uuid-a"⟩, ⟨"p1", "uuid-b"⟩] "p1" =
      Except.ok ⟨"p1", "uuid-a"⟩
    ∧ BatchLaunch.get_identity [⟨"u1", "id-a"⟩, ⟨"u1", "id-b"⟩] "u1" =
      Except.ok ⟨"u1", "id-a"⟩ :=
  ⟨(c5_first_match_lookup [⟨"p1", "uuid-a"⟩, ⟨"p1", "uuid-b"⟩] "p1" [] "").1
      [] ⟨"p1", "uuid-a"⟩ [⟨"p1", "uuid-b"⟩] rfl rfl (by simp),
   (c5_first_match_lookup [] "" [⟨"u1", "id-a"⟩, ⟨"u1", "id-b"⟩] "u1").2.2.1
      [] ⟨"u1", "id-a"⟩ [⟨"u1", "id-b"⟩] rfl rfl (by simp)⟩

/-- C6: the launch resolution chain resolves the project by exact name match
to the account's own username, and the parsed project-name override never
influences anything: launching with any overridden project field yields the
same result, and in the success case the submitted project uuid is the one
found by looking up the owner's username. -/
theorem c6_project_override_unused (env : BatchLaunch.Env)
    (inst : BatchLaunch.InstanceReq) (p : String) :
    BatchLaunch.Instance.launch env { inst with project := p } =
      BatchLaunch.Instance.launch env inst
    ∧ ∀ r, BatchLaunch.Instance.launch env inst = Except.ok r →
        ∃ pe, BatchLaunch.get_project env.projects inst.owner = Except.ok pe ∧
          r.project_uuid = pe.uuid := by
  constructor
  · cases inst; rfl
  · intro r h
    exact BatchLaunch.launch_ok_project env inst r h

/-- C6 witness: a concrete catalog and row with a project override; the
override changes nothing and the submitted project uuid comes from the
owner-name lookup. -/
theorem c6_witness :
    BatchLaunch.Instance.launch
        ⟨[⟨"tiny1", "alias-1"⟩], [⟨"u1", "alloc-1"⟩], [⟨"u1", "proj-1"⟩],
         [⟨"u1", "id-1"⟩], [⟨1552, "img-name", [⟨"2.0", [⟨"mach-1"⟩]⟩]⟩]⟩
        { (⟨1552, "2.0", "tiny1", "", "ignored", "", "u1"⟩ : BatchLaunch.InstanceReq)
          with project := "override" } =
      BatchLaunch.Instance.launch
        ⟨[⟨"tiny1", "alias-1"⟩], [⟨"u1", "alloc-1"⟩], [⟨"u1", "proj-1"⟩],
         [⟨"u1", "id-1"⟩], [⟨1552, "img-name", [⟨"2.0", [⟨"mach-1"⟩]⟩]⟩]⟩
        ⟨1552, "2.0", "tiny1", "", "ignored", "", "u1"⟩
    ∧ ∃ pe, BatchLaunch.get_project [⟨"u1", "proj-1"⟩] "u1" = Except.ok pe ∧
        (⟨"img-name", "mach-1", "alias-1", "alloc-1", "proj-1", "id-1"⟩ :
          BatchLaunch.LaunchArgs).project_uuid = pe.uuid :=
  ⟨(c6_project_override_unused
      ⟨[⟨"tiny1", "alias-1"⟩], [⟨"u1", "alloc-1"⟩], [⟨"u1", "proj-1"⟩],
       [⟨"u1", "id-1"⟩], [⟨1552, "img-name", [⟨"2.0", [⟨"mach-1"⟩]⟩]⟩]⟩
      ⟨1552, "2.0", "tiny1", "", "ignored", "", "u1"⟩ "override").1,
   (c6_project_override_unused
      ⟨[⟨"tiny1", "alias-1"⟩], [⟨"u1", "alloc-1"⟩], [⟨"u1", "proj-1"⟩],
       [⟨"u1", "id-1"⟩], [⟨1552, "img-name", [⟨"2.0", [⟨"mach-1"⟩]⟩]⟩]⟩
      ⟨1552, "2.0", "tiny1", "", "ignored", "", "u1"⟩ "override").2
     ⟨"img-name", "mach-1", "alias-1", "alloc-1", "proj-1", "id-1"⟩ rfl⟩

/-- C7: a row whose target allocation-unit count is lower than the current
AU, with --force-set absent, is skipped and no PATCH write is issued. -/
theorem c7_skip_lower_target (uuid : String) (current_au target : Int)
    (h : target < current_au) :
    UpdateAllocation.update_user_AU (some (uuid, current_au)) target false =
      (UpdateAllocation.AUOutcome.skipped, []) := by
  simp [UpdateAllocation.update_user_AU, h]

/-- C7 witness: target 50 against current AU 100 without --force-set. -/
theorem c7_witness :
    UpdateAllocation.update_user_AU (some ("alloc-uuid", 100)) 50 false =
      (UpdateAllocation.AUOutcome.skipped, []) :=
  c7_skip_lower_target "alloc-uuid" 100 50 (by norm_num)

namespace Cleanup

theorem project_uuid_inj (l : List Project)
    (hnd : (l.map (fun p => p.uuid)).Nodup) :
    ∀ p ∈ l, ∀ q ∈ l, p.uuid = q.uuid → p = q := by
  intro p hp q hq he
  exact List.inj_on_of_nodup_map hnd hp hq he

theorem filter_eq_singleton_of_nodup (l : List Project) (dp : Project)
    (hnd : (l.map (fun p => p.uuid)).Nodup) (hmem : dp ∈ l) :
    l.filter (fun p => p.uuid == dp.uuid) = [dp] := by
  induction l with
  | nil => simp at hmem
  | cons x xs ih =>
    rw [List.map_cons, List.nodup_cons] at hnd
    obtain ⟨hx, hnd2⟩ := hnd
    rcases List.mem_cons.mp hmem with rfl | hmem2
    · have hrest : xs.filter (fun p => p.uuid == dp.uuid) = [] := by
        apply List.filter_eq_nil.mpr
        intro q hq
        simp only [beq_iff_eq]
        intro heq
        exact hx (heq ▸ List.mem_map_of_mem (fun p => p.uuid) hq)
      simp [List.filter_cons, hrest]
    · have hxne : (x.uuid == dp.uuid) = false := by
        simp only [beq_eq_false_iff_ne]
        intro heq
        exact hx (heq ▸ List.mem_map_of_mem (fun p => p.uuid) hmem2)
      simp only [List.filter_cons, hxne, Bool.false_eq_true, if_false]
      exact ih hnd2 hmem2

/-- A second cleanup pass over an account that holds nothing but its default
project (named after the username) is a no-op. -/
theorem cleanup_single_default (dp : Project) (username fresh2 : String)
    (h : dp.name = username) :
    cleanup_account ⟨[], [], [], [dp], username⟩ fresh2 =
      (⟨[], [], [], [], []⟩, ⟨[], [], [], [dp], username⟩) := by
  unfold cleanup_account
  simp [List.find?, h]

end Cleanup

/-- C9: cleaning up an account that owns no instances, no volumes and no
links deletes zero of each; it creates a project named after the username
exactly when none exists; afterwards the account holds exactly one project,
named after the username; every other project is deleted (a pre-existing
project survives iff it remains as the default); and a second run performs
no create and no delete of any kind.  The uuid hypotheses say that project
uuids are unique and that the uuid the API would assign to a newly created
project is fresh. -/
theorem c9_cleanup_idempotent (st : Cleanup.AccountState) (freshUuid : String)
    (hl : st.links = []) (hv : st.volumes = []) (hi : st.instances = [])
    (hnd : (st.projects.map (fun p => p.uuid)).Nodup)
    (hfresh : freshUuid ∉ st.projects.map (fun p => p.uuid)) :
    (Cleanup.cleanup_account st freshUuid).1.deleted_links = []
    ∧ (Cleanup.cleanup_account st freshUuid).1.deleted_instances = []
    ∧ (Cleanup.cleanup_account st freshUuid).1.deleted_volumes = []
    ∧ ((∃ p ∈ st.projects, p.name = st.username) →
        (Cleanup.cleanup_account st freshUuid).1.created_projects = [])
    ∧ ((∀ p ∈ st.projects, p.name ≠ st.username) →
        (Cleanup.cleanup_account st freshUuid).1.created_projects =
          [⟨st.username, freshUuid⟩])
    ∧ (∃ dp, (Cleanup.cleanup_account st freshUuid).2.projects = [dp] ∧
        dp.name = st.username)
    ∧ (∀ p ∈ st.projects,
        p ∈ (Cleanup.cleanup_account st freshUuid).1.deleted_projects ↔
        p ∉ (Cleanup.cleanup_account st freshUuid).2.projects)
    ∧ (∀ fresh2,
        Cleanup.cleanup_account (Cleanup.cleanup_account st freshUuid).2 fresh2 =
          (⟨[], [], [], [], []⟩, (Cleanup.cleanup_account st freshUuid).2)) := by
  cases hfind : st.projects.find? (fun p => p.name == st.username) with
  | some dp =>
    have hdpmem : dp ∈ st.projects := List.mem_of_find?_eq_some hfind
    have hdpname : dp.name = st.username := by
      have := List.find?_some hfind
      simpa using this
    have hfilter : st.projects.filter (fun p => p.uuid == dp.uuid) = [dp] :=
      Cleanup.filter_eq_singleton_of_nodup st.projects dp hnd hdpmem
    have heq : Cleanup.cleanup_account st freshUuid =
        (⟨st.links, st.instances, st.volumes, [],
          st.projects.filter (fun p => p.uuid != dp.uuid)⟩,
         ⟨[], [], [], [dp], st.username⟩) := by
      unfold Cleanup.cleanup_account
      rw [hfind]
      simp only [hfilter]
    rw [heq]
    refine ⟨hl, hi, hv, fun _ => rfl, ?_, ⟨dp, rfl, hdpname⟩, ?_, ?_⟩
    · intro hforall
      exact absurd hdpname (hforall dp hdpmem)
    · intro p hp
      constructor
      · intro hdel hmem1
        have hpuuid := List.of_mem_filter hdel
        have hpd : p = dp := by simpa using hmem1
        subst hpd
        simp at hpuuid
      · intro hnmem
        have hne : p ≠ dp := by simpa using hnmem
        have huuid : (p.uuid != dp.uuid) = true := by
          simp only [bne_iff_ne, ne_eq]
          intro he
          exact hne (Cleanup.project_uuid_inj st.projects hnd p hp dp hdpmem he)
        exact List.mem_filter.mpr ⟨hp, huuid⟩
    · intro fresh2
      exact Cleanup.cleanup_single_default dp st.username fresh2 hdpname
  | none =>
    have hnone : ∀ p ∈ st.projects, p.name ≠ st.username := by
      have hall := List.find?_eq_none.mp hfind
      intro p hp
      simpa using hall p hp
    have huuid_ne : ∀ p ∈ st.projects, p.uuid ≠ freshUuid := by
      intro p hp he
      exact hfresh (he ▸ List.mem_map_of_mem (fun p => p.uuid) hp)
    have hfilterne : st.projects.filter (fun p => p.uuid != freshUuid) =
        st.projects := by
      apply List.filter_eq_self.mpr
      intro p hp
      simpa using huuid_ne p hp
    have hfiltereq : st.projects.filter (fun p => p.uuid == freshUuid) = [] := by
      apply List.filter_eq_nil.mpr
      intro p hp
      simpa using huuid_ne p hp
    have heq : Cleanup.cleanup_account st freshUuid =
        (⟨st.links, st.instances, st.volumes, [⟨st.username, freshUuid⟩],
          st.projects⟩,
         ⟨[], [], [], [⟨st.username, freshUuid⟩], st.username⟩) := by
      unfold Cleanup.cleanup_account
      rw [hfind]
      simp only [hfilterne, hfiltereq, List.nil_append]
    rw [heq]
    refine ⟨hl, hi, hv, ?_, fun _ => rfl,
      ⟨⟨st.username, freshUuid⟩, rfl, rfl⟩, ?_, ?_⟩
    · intro hex
      obtain ⟨p, hp, hname⟩ := hex
      exact absurd hname (hnone p hp)
    · intro p hp
      constructor
      · intro _ hmem1
        have hpd : p = ⟨st.username, freshUuid⟩ := by simpa using hmem1
        have hpu : p.uuid = freshUuid := by rw [hpd]
        exact huuid_ne p hp hpu
      · intro _
        exact hp
    · intro fresh2
      exact Cleanup.cleanup_single_default ⟨st.username, freshUuid⟩
        st.username fresh2 rfl

/-- C9 witness: an account with no instances, volumes or links, one stray
project and no default project; the run creates the default, deletes the
stray, leaves exactly the default, and a second run is a no-op. -/
theorem c9_witness :
    (Cleanup.cleanup_account ⟨[], [], [], [⟨"other", "uuid-b"⟩], "u1"⟩
        "uuid-c").1.deleted_links = []
    ∧ (Cleanup.cleanup_account ⟨[], [], [], [⟨"other", "uuid-b"⟩], "u1"⟩
        "uuid-c").1.deleted_instances = []
    ∧ (Cleanup.cleanup_account ⟨[], [], [], [⟨"other", "uuid-b"⟩], "u1"⟩
        "uuid-c").1.deleted_volumes = []
    ∧ ((∃ p ∈ ([⟨"other", "uuid-b"⟩] : List Cleanup.Project), p.name = "u1") →
        (Cleanup.cleanup_account ⟨[], [], [], [⟨"other", "uuid-b"⟩], "u1"⟩
          "uuid-c").1.created_projects = [])
    ∧ ((∀ p ∈ ([⟨"other", "uuid-b"⟩] : List Cleanup.Project), p.name ≠ "u1") →
        (Cleanup.cleanup_account ⟨[], [], [], [⟨"other", "uuid-b"⟩], "u1"⟩
          "uuid-c").1.created_projects = [⟨"u1", "uuid-c"⟩])
    ∧ (∃ dp, (Cleanup.cleanup_account ⟨[], [], [], [⟨"other", "uuid-b"⟩], "u1"⟩
        "uuid-c").2.projects = [dp] ∧ dp.name = "u1")
    ∧ (∀ p ∈ ([⟨"other", "uuid-b"⟩] : List Cleanup.Project),
        p ∈ (Cleanup.cleanup_account ⟨[], [], [], [⟨"other", "uuid-b"⟩], "u1"⟩
          "uuid-c").1.deleted_projects ↔
        p ∉ (Cleanup.cleanup_account ⟨[], [], [], [⟨"other", "uuid-b"⟩], "u1"⟩
          "uuid-c").2.projects)
    ∧ (∀ fresh2,
        Cleanup.cleanup_account
          (Cleanup.cleanup_account ⟨[], [], [], [⟨"other", "uuid-b"⟩], "u1"⟩
            "uuid-c").2 fresh2 =
          (⟨[], [], [], [], []⟩,
           (Cleanup.cleanup_account ⟨[], [], [], [⟨"other", "uuid-b"⟩], "u1"⟩
             "uuid-c").2)) :=
  c9_cleanup_idempotent ⟨[], [], [], [⟨"other", "uuid-b"⟩], "u1"⟩ "uuid-c"
    rfl rfl rfl (by simp) (by simp)

/-- C10: a target exactly equal to the current AU is not skipped even
without --force-set: the skip guard is a strict less-than, so the PATCH is
still issued. -/
theorem c10_patch_on_equal_target (uuid : String) (current_au : Int) :
    UpdateAllocation.update_user_AU (some (uuid, current_au)) current_au false =
      (UpdateAllocation.AUOutcome.patched, [(uuid, current_au)]) := by
  simp [UpdateAllocation.update_user_AU]
